import Mathlib

/-!
Shallow embedding of `pyspeckit/spectrum/baseline.py` (class `Baseline`):
region selection (`dofit` lines 130-178), mask construction (lines 183-199),
the `_baseline` fit wrapper (lines 385-489), the session operations
`dofit`/`unsubtract` (lines 119-268) and `crop`/`downsample` (lines 491-502).

Modelling conventions:
* floating-point sample values are modelled as rationals;
* the external Levenberg-Marquardt minimizer `mpfit.mpfit` is an oracle
  argument receiving the masked data, the masked error array and the initial
  guess, and returning best-fit parameters together with the fit statistic
  `fnorm`; the floating-point classification of `fnorm` (finite / NaN /
  infinite) is modelled explicitly because the source tests
  `np.isnan(mp.fnorm)`;
* the coordinate-unit converter `xarr.as_unit` is an external collaborator;
  it is modelled as: unit `pixels` yields the index array, any other unit
  yields the native coordinate array (a length-preserving transformation);
* numpy boolean arithmetic on masks: `+` is logical or, `True - m` is
  logical not (numpy boolean subtraction is exclusive or);
* slice assignment `a[lo:hi] = v` with non-negative clamped bounds is
  `setRange`.
-/

namespace BaselinePy

/-- Classification of the floating-point scalar `mp.fnorm` reported by the
external minimizer: a finite value, NaN, or an infinity. -/
inductive FNorm where
  | finite (q : ℚ)
  | nan
  | inf
deriving DecidableEq

/-- `np.isnan` applied to the fit statistic (source line 480). -/
def FNorm.isnan : FNorm → Bool
  | .nan => true
  | _ => false

/-- `np.isfinite` applied to the fit statistic (used to state the spec's
"not a finite number" wording). -/
def FNorm.isfinite : FNorm → Bool
  | .finite _ => true
  | _ => false

/-- Result returned by the external minimizer `mpfit.mpfit`: best-fit
parameters `params` (`mp.params`) and the statistic `fnorm` (`mp.fnorm`). -/
structure MinResult where
  params : List ℚ
  fnorm : FNorm
deriving DecidableEq

/-- The exceptions `_baseline` can raise: the explicit
`ValueError("chi^2 is NAN in baseline fitting")` at line 481, and the
IndexError from `xarrconv[OK][0]` at line 448 when no sample is unmasked in
the power-law branch. -/
inductive BLErr where
  | chiSqNaN
  | indexError
deriving DecidableEq

/-- Is an `Except` result an error? -/
def exceptIsError {ε α : Type} : Except ε α → Bool
  | .error _ => true
  | .ok _ => false

instance exceptDecEq {ε α : Type} [DecidableEq ε] [DecidableEq α] :
    DecidableEq (Except ε α) := fun a b =>
  match a, b with
  | .error e1, .error e2 =>
    if h : e1 = e2 then .isTrue (by rw [h])
    else .isFalse (fun hc => h (by injection hc))
  | .ok v1, .ok v2 =>
    if h : v1 = v2 then .isTrue (by rw [h])
    else .isFalse (fun hc => h (by injection hc))
  | .error _, .ok _ => .isFalse (fun hc => Except.noConfusion hc)
  | .ok _, .error _ => .isFalse (fun hc => Except.noConfusion hc)

/-- Helper for Python slice assignment `a[lo:hi] = v`: positions `j` of the
remaining list correspond to absolute indices `i + j`. -/
def setRangeAux (v : α) (lo hi : ℕ) : ℕ → List α → List α
  | _, [] => []
  | i, x :: xs => (if lo ≤ i ∧ i < hi then v else x) :: setRangeAux v lo hi (i + 1) xs

/-- Python slice assignment `a[lo:hi] = v` (with non-negative bounds, which
numpy clamps to the array length). -/
def setRange (l : List α) (lo hi : ℕ) (v : α) : List α :=
  setRangeAux v lo hi 0 l

/-- Helper for `np.argmin(abs(xarr - target))`: scan with the running best
index and best distance; `<` keeps the first minimum, matching `np.argmin`
(and the spec's lower-index tie-break). -/
def argminAbsAux (target : ℚ) : List ℚ → ℕ → ℕ → ℚ → ℕ
  | [], _, besti, _ => besti
  | x :: xs, i, besti, bestd =>
    if |x - target| < bestd then argminAbsAux target xs (i + 1) i |x - target|
    else argminAbsAux target xs (i + 1) besti bestd

/-- `np.argmin(abs(xarr - target))` (source lines 136-137 and 164-165). -/
def argminAbs (xarr : List ℚ) (target : ℚ) : ℕ :=
  match xarr with
  | [] => 0
  | x :: xs => argminAbsAux target xs 1 0 |x - target|

/-- `zip(l[::2], l[1::2])`: consecutive pairs; a trailing odd element is
dropped (the source additionally guards every use with an even-length
check). -/
def pairsOf : List α → List (α × α)
  | a :: b :: rest => (a, b) :: pairsOf rest
  | _ => []

/-- The per-pair swap `if xl > xu: xl,xu = xu,xl` (lines 138, 146, 166, 173). -/
def normPair (a b : ℕ) : ℕ × ℕ := if a > b then (b, a) else (a, b)

/-- Conversion of a flat coordinate-unit endpoint list to normalized pixel
pairs via nearest-sample lookup (lines 135-138 / 163-166).  The source
interleaves this conversion with the mask assignments inside one loop; the
conversion reads only the immutable coordinate array, so it is hoisted out
here. -/
def veloPairsToPix (xarr : List ℚ) (vs : List ℚ) : List (ℕ × ℕ) :=
  (pairsOf vs).map fun p => normPair (argminAbs xarr p.1) (argminAbs xarr p.2)

/-- Normalized pixel pairs of a flat pixel endpoint list (lines 145-146 /
172-173). -/
def pixPairsNorm (ps : List ℕ) : List (ℕ × ℕ) :=
  (pairsOf ps).map fun p => normPair p.1 p.2

/-- The accumulated flat pixel list `includepix`/`excludepix`
(`+= [xl, xu]` in the loops). -/
def pairFlatten (prs : List (ℕ × ℕ)) : List ℕ :=
  prs.foldl (fun l p => l ++ [p.1, p.2]) []

/-- The loop of slice assignments `excludemask[xl:xu] = v` over the
normalized pairs. -/
def applyPairsSet (v : Bool) (em : List Bool) (prs : List (ℕ × ℕ)) : List Bool :=
  prs.foldl (fun m p => setRange m p.1 p.2 v) em

/-- The session state of a `Baseline` object, restricted to the fields the
baseline core reads or writes.  `data` is the host series `Spectrum.data`
(the single shared mutable resource), `xarr` the read-only coordinate array,
`error` the read-only uncertainty array, `spectofit` the working copy set up
by `__call__`.  The source also stores interactive-plotting fields (click
counters, plot handles) that the numerical core never reads; they are
omitted.  `includepix` is first assigned inside `dofit`; it is modelled as a
state field. -/
structure BLState where
  data : List ℚ
  xarr : List ℚ
  error : List ℚ
  spectofit : List ℚ
  baselinepars : Option (List ℚ)
  order : ℕ
  basespec : List ℚ
  excludemask : List Bool
  OKmask : List Bool
  subtracted : Bool
  bx1 : ℕ
  bx2 : ℕ
  includepix : List ℕ
  includevelo : List ℚ
  excludepix : List ℕ
  excludevelo : List ℚ
  powerlaw : Bool
deriving DecidableEq

/-- The `include`/`exclude` arguments of `dofit` together with their unit
argument: `absent` is Python `None`; `velo` covers the coordinate units
`velo, km/s, wavelength, frequency, xarr`; `pix` covers
`pix, pixel, chan, channel`; `otherUnits` is a supplied list whose unit
string is in neither set (it falls into the same `else` branch as `None`). -/
inductive RegionSpec where
  | absent
  | velo (vs : List ℚ)
  | pix (ps : List ℕ)
  | otherUnits
deriving DecidableEq

/-- The inclusion-interval processing of `dofit`, source lines 130-151.
Both unit branches first set `excludemask[:] = True` and only then test the
length parity, so an odd-length inclusion list leaves the mask all-True; the
stored `includepix`/`includevelo` are updated only in the even case. -/
def processInclude (s : BLState) : RegionSpec → BLState
  | .velo vs =>
    let s1 := { s with excludemask := List.replicate s.excludemask.length true }
    if vs.length % 2 = 0 then
      { s1 with includevelo := vs,
                includepix := pairFlatten (veloPairsToPix s1.xarr vs),
                excludemask := applyPairsSet false s1.excludemask (veloPairsToPix s1.xarr vs) }
    else s1
  | .pix ps =>
    let s1 := { s with excludemask := List.replicate s.excludemask.length true }
    if ps.length % 2 = 0 then
      { s1 with includepix := pairFlatten (pixPairsNorm ps),
                excludemask := applyPairsSet false s1.excludemask (pixPairsNorm ps) }
    else s1
  | _ => { s with includepix := [], includevelo := [] }

/-- `min(list)` over a nonempty Python list (callers guard emptiness). -/
def minNat : List ℕ → ℕ
  | [] => 0
  | x :: xs => xs.foldl min x

/-- `max(list)` over a nonempty Python list (callers guard emptiness). -/
def maxNat : List ℕ → ℕ
  | [] => 0
  | x :: xs => xs.foldl max x

/-- The window update from the inclusion pixels, source lines 153-157:
`if bx1 < min(includepix): bx1 = min(includepix)` and
`if bx2 > max(includepix): bx2 = max(includepix)`. -/
def clampWindow (s : BLState) : BLState :=
  if s.includepix = [] then s
  else
    { s with bx1 := if s.bx1 < minNat s.includepix then minNat s.includepix else s.bx1,
             bx2 := if s.bx2 > maxNat s.includepix then maxNat s.includepix else s.bx2 }

/-- The exclusion-interval processing of `dofit`, source lines 159-178.
Here the even-length guard encloses the whole branch, so an odd-length
exclusion list changes nothing. -/
def processExclude (s : BLState) : RegionSpec → BLState
  | .velo vs =>
    if vs.length % 2 = 0 then
      { s with excludevelo := vs,
               excludepix := pairFlatten (veloPairsToPix s.xarr vs),
               excludemask := applyPairsSet true s.excludemask (veloPairsToPix s.xarr vs) }
    else s
  | .pix ps =>
    if ps.length % 2 = 0 then
      { s with excludepix := pairFlatten (pixPairsNorm ps),
               excludemask := applyPairsSet true s.excludemask (pixPairsNorm ps) }
    else s
  | _ => { s with excludepix := [], excludevelo := [] }

/-- The normalized pixel pairs an exclusion spec contributes, including the
even-length guard (empty when the guard rejects or no list is supplied). -/
def excPixPairsOf (xarr : List ℚ) : RegionSpec → List (ℕ × ℕ)
  | .velo vs => if vs.length % 2 = 0 then veloPairsToPix xarr vs else []
  | .pix ps => if ps.length % 2 = 0 then pixPairsNorm ps else []
  | _ => []

/-- `OK_edges`, source lines 183-185: an all-True array of the shape of
`OKmask` (`OKmask*False + True`), with `[:bx1]` and `[bx2:]` set False. -/
def okEdges (s : BLState) : List Bool :=
  setRange (setRange (List.replicate s.OKmask.length true) 0 s.bx1 false)
    s.bx2 s.OKmask.length false

/-- Elementwise not, `True - m` in numpy boolean arithmetic. -/
def notList (l : List Bool) : List Bool := l.map not

/-- Elementwise or, `+` in numpy boolean arithmetic. -/
def orList (a b : List Bool) : List Bool := List.zipWith or a b

/-- The mask handed to `_baseline`, source line 199:
`((True-OKmask)+excludemask)+(True-OK_edges)`. -/
def fitMask (s : BLState) : List Bool :=
  orList (orList (notList s.OKmask) s.excludemask) (notList (okEdges s))

/-- `Baseline.unsubtract`, source lines 263-268.  The boolean reports
whether the informational message ("Baseline wasn't subtracted; not
unsubtracting.") was printed. -/
def unsubtract (s : BLState) : BLState × Bool :=
  if s.subtracted then
    ({ s with data := List.zipWith (· + ·) s.data s.basespec, subtracted := false }, false)
  else (s, true)

/-- `if self.subtracted: self.unsubtract()`, source lines 191-192. -/
def postUnsub (s : BLState) : BLState :=
  if s.subtracted then (unsubtract s).1 else s

/-- The unit argument `xarr_fit_units` of the external coordinate
converter. -/
inductive XUnits where
  | pixels
  | native
deriving DecidableEq

/-- `xarr.as_unit u`: external converter; `pixels` yields the index array,
any other unit a native-length coordinate array (modelled as the native
array itself). -/
def asUnit (xarr : List ℚ) : XUnits → List ℚ
  | .pixels => List.map (fun (i : ℕ) => (i : ℚ)) (List.range xarr.length)
  | .native => xarr

/-- `np.poly1d(p)(x)`: coefficients highest degree first, Horner form. -/
def polyEval (p : List ℚ) (x : ℚ) : ℚ := p.foldl (fun acc c => acc * x + c) 0

/-- Rational model of the float power `b ** e`: exact when the exponent is
an integer; a fractional exponent is mapped to 0 (numpy would produce an
irrational value or NaN there).  No theorem in this file depends on the
value at a fractional exponent. -/
def qrpow (b e : ℚ) : ℚ := if e.den = 1 then b ^ e.num else 0

/-- The power-law curve `fitp[0]*(x/fitp[2])**(-fitp[1])` (source lines 208
and 485).  The source indexes `fitp` directly; a parameter list shorter than
3 would raise in Python and is given defaults here that no theorem relies
on. -/
def plawEval (p : List ℚ) (x : ℚ) : ℚ :=
  p.headD 0 * qrpow (x / p.getD 2 1) (-(p.getD 1 0))

/-- The model curve at one coordinate: power-law (line 485) or polynomial
(line 487). -/
def evalModel (powerlaw : Bool) (p : List ℚ) (x : ℚ) : ℚ :=
  if powerlaw then plawEval p x else polyEval p x

/-- Numpy boolean-mask indexing `l[m]`. -/
def maskSelect (l : List ℚ) (m : List Bool) : List ℚ :=
  (List.zip l m).filterMap fun p => if p.2 then some p.1 else Option.none

/-- Insertion step for sorting (ascending). -/
def insertSorted (x : ℚ) : List ℚ → List ℚ
  | [] => [x]
  | y :: ys => if x ≤ y then x :: y :: ys else y :: insertSorted x ys

/-- Ascending sort used by the median. -/
def sortQ (l : List ℚ) : List ℚ := l.foldr insertSorted []

/-- `np.median`: middle element of the sorted data, or the mean of the two
middle elements for even length.  The empty case (an error in numpy) is
mapped to 0; the power-law guess that calls this errors out separately on an
empty selection. -/
def median (l : List ℚ) : ℚ :=
  let s := sortQ l
  let n := s.length
  if n = 0 then 0
  else if n % 2 = 1 then s.getD (n / 2) 0
  else (s.getD (n / 2 - 1) 0 + s.getD (n / 2) 0) / 2

/-- The sentinel `1e10` assigned to the error array of flagged samples. -/
def bigErr : ℚ := 10 ^ 10

/-- The preparation phase of `Baseline._baseline` (source lines 401-461),
up to but not including the `mpfit.mpfit` call: resolve `xmin`/`xmax`,
copy and adjust the error array, build `OK`, and compute the data, error
and initial-guess arguments of the minimizer.  Notes on fidelity:
* `xmin`/`xmax` are passed as `'default'` by `dofit` and a mask is always
  supplied, so lines 401-410 resolve them to `0` and `len(spectrum)`; the
  slice assignments `err[:0]`, `err[len:]`, `OK[:0]`, `OK[len:]` they feed
  are no-ops and are not repeated here;
* `zeroerr_is_OK` keeps its default True: zero errors are replaced by 1;
* the `exclude` argument (always `None` from `dofit`) assigns `bigErr` over
  one index range;
* the NaN-in-spectrum check at line 438 drops into the debugger rather than
  raising and has no rational-model counterpart;
* in the power-law branch `xarrconv[OK][0]` raises IndexError when nothing
  is unmasked; the initial guess is
  `[median(spectrum[OK]), 2, xarrconv[OK][0] - 1]`;
* in the polynomial branch the guess is the zero vector of length
  `order + 1`.
There is no validation of sample positivity anywhere in this phase. -/
def baselinePrep (spectrum xarr err : List ℚ) (excl : Option (ℕ × ℕ))
    (m : List Bool) (powerlaw : Bool) (order : ℕ) (u : XUnits) :
    Except BLErr (List ℚ × List ℚ × List ℚ) :=
  let err1 := err.map fun e => if e = 0 then 1 else e
  let err2 := match excl with
    | some (a, b) => setRange err1 a b bigErr
    | Option.none => err1
  let err3 := List.zipWith (fun e b => if b then bigErr else e) err2 m
  let OK := notList m
  let xarrconv := asUnit xarr u
  if powerlaw then
    let okdata := maskSelect spectrum OK
    match maskSelect xarrconv OK with
    | [] => .error .indexError
    | x0 :: _ => .ok (okdata, maskSelect err3 OK, [median okdata, 2, x0 - 1])
  else
    .ok (maskSelect spectrum OK, maskSelect err3 OK, List.replicate (order + 1) 0)

/-- `Baseline._baseline` (source lines 385-489): prepare, invoke the
external minimizer, raise `ValueError` when `np.isnan(mp.fnorm)`, and
otherwise evaluate the best-fit model over the full converted coordinate
array (all samples, masked or not). -/
def baselineFit (spectrum xarr err : List ℚ) (excl : Option (ℕ × ℕ))
    (m : List Bool) (powerlaw : Bool) (order : ℕ) (u : XUnits)
    (minimize : List ℚ → List ℚ → List ℚ → MinResult) :
    Except BLErr (List ℚ × List ℚ) :=
  match baselinePrep spectrum xarr err excl m powerlaw order u with
  | .error e => .error e
  | .ok (okdata, okerr, pguess) =>
    let mp := minimize okdata okerr pguess
    if mp.fnorm.isnan then .error .chiSqNaN
    else .ok ((asUnit xarr u).map (evalModel powerlaw mp.params), mp.params)

/-- The tail of `dofit` after the region processing and the conditional
unsubtract (source lines 194-222), parameterized by the `_baseline` result.
On an exception the Python object keeps the mutations made so far, so the
error case returns the current state together with the error.  On success
the tuple assignment stores the curve and parameters, lines 205-211
recompute `basespec` from the stored parameters over the full coordinate
array, and the subtract/no-subtract branches update the host series.  Note
that by this point `subtracted` is always False (lines 191-192), so the
`self.subtracted and fit_original` branch at line 213 and the `unsubtract`
call at line 221 are unreachable; they are embedded nonetheless. -/
def dofitPost (s : BLState) (subtract fit_original powerlaw : Bool) (u : XUnits)
    (r : Except BLErr (List ℚ × List ℚ)) : BLState × Option BLErr :=
  match r with
  | .error e => (s, some e)
  | .ok (bestfit, fitp) =>
    let s3 := { s with basespec := bestfit, baselinepars := some fitp }
    let s4 :=
      if powerlaw then
        { s3 with powerlaw := true, basespec := (asUnit s3.xarr u).map (plawEval fitp) }
      else
        { s3 with powerlaw := false, basespec := (asUnit s3.xarr u).map (polyEval fitp) }
    if subtract then
      if s4.subtracted && fit_original then
        ({ s4 with data := List.zipWith (· - ·) s4.spectofit s4.basespec,
                   subtracted := true }, Option.none)
      else
        ({ s4 with data := List.zipWith (· - ·) s4.data s4.basespec,
                   subtracted := true }, Option.none)
    else
      ({ postUnsub s4 with subtracted := false }, Option.none)

/-- The region-selection phase of `dofit` (source lines 130-178): inclusion
processing, window clamp, exclusion processing, in that order. -/
def regionPipe (s : BLState) (inc exc : RegionSpec) : BLState :=
  processExclude (clampWindow (processInclude s inc)) exc

/-- `Baseline.dofit` (source lines 119-225): process inclusion intervals,
clamp the window to them, process exclusion intervals, unsubtract a
previously subtracted baseline, fit through `_baseline` with the composed
mask, then store/subtract the result.  The plotting call at line 224 is
display-collaborator work outside the core.  `exclude=None` is passed to
`_baseline` exactly as at source line 198. -/
def dofit (s : BLState) (inc exc : RegionSpec)
    (subtract fit_original powerlaw : Bool) (u : XUnits)
    (minimize : List ℚ → List ℚ → List ℚ → MinResult) : BLState × Option BLErr :=
  let s2 := postUnsub (regionPipe s inc exc)
  dofitPost s2 subtract fit_original powerlaw u
    (baselineFit s2.spectofit s2.xarr s2.error Option.none (fitMask s2) powerlaw s2.order u minimize)

/-- Python slice `l[a:b]` for non-negative `a`, `b`. -/
def pySlice (l : List α) (a b : ℕ) : List α := (l.take b).drop a

/-- `Baseline.crop` (source lines 491-497): slice the stored curve, the
exclusion mask and the validity mask identically; no other field is
touched. -/
def crop (s : BLState) (x1 x2 : ℕ) : BLState :=
  { s with basespec := pySlice s.basespec x1 x2,
           excludemask := pySlice s.excludemask x1 x2,
           OKmask := pySlice s.OKmask x1 x2 }

/-- Python stride `l[::k]` for `k ≥ 1` (taking every k-th element starting
at index 0). -/
def strided (k : ℕ) : List α → List α
  | [] => []
  | x :: xs => x :: strided k (xs.drop (k - 1))
termination_by l => l.length
decreasing_by simp [List.length_drop]; omega

/-- `Baseline.downsample` (source lines 499-502): stride the same three
arrays identically; no other field is touched. -/
def downsample (s : BLState) (factor : ℕ) : BLState :=
  { s with basespec := strided factor s.basespec,
           excludemask := strided factor s.excludemask,
           OKmask := strided factor s.OKmask }

/-- A freshly constructed session over given data and coordinates, following
`Baseline.__init__` (source lines 34-54): zero curve, clear masks, window
`[0, N-1]`, nothing subtracted, unit errors standing in for the host
uncertainty array. -/
def initState (dat xa : List ℚ) : BLState :=
  { data := dat, xarr := xa, error := List.replicate dat.length 1,
    spectofit := dat, baselinepars := Option.none, order := 0,
    basespec := List.replicate dat.length 0,
    excludemask := List.replicate dat.length false,
    OKmask := List.replicate dat.length true,
    subtracted := false, bx1 := 0, bx2 := dat.length - 1,
    includepix := [], includevelo := [], excludepix := [], excludevelo := [],
    powerlaw := false }

/-- A session that has already fit and subtracted a (constant 1) baseline
from a one-sample series: `data = [10]`, stored curve `[1]`. -/
def subSession : BLState :=
  { initState [10] [0] with subtracted := true, basespec := [1], bx2 := 1 }

/-- A minimizer oracle whose reported statistic is NaN. -/
def oracleNan : List ℚ → List ℚ → List ℚ → MinResult := fun _ _ _ => ⟨[0], FNorm.nan⟩

/-- A minimizer oracle returning a zero polynomial with finite statistic. -/
def oracleZero : List ℚ → List ℚ → List ℚ → MinResult := fun _ _ _ => ⟨[0], FNorm.finite 0⟩

/-- A minimizer oracle returning power-law parameters with finite statistic. -/
def oraclePL : List ℚ → List ℚ → List ℚ → MinResult := fun _ _ _ => ⟨[1, 2, 3], FNorm.finite 0⟩

/-- A minimizer oracle whose reported statistic is infinite (not NaN). -/
def oracleInf : List ℚ → List ℚ → List ℚ → MinResult := fun _ _ _ => ⟨[1], FNorm.inf⟩

/-- A fresh ten-sample session used by the window examples. -/
def tenSession : BLState := initState [1, 2, 3, 4, 5, 6, 7, 8, 9, 10] [0, 1, 2, 3, 4, 5, 6, 7, 8, 9]

/-- A fresh five-sample session used by the mask examples. -/
def fiveSession : BLState := initState [1, 2, 3, 4, 5] [0, 1, 2, 3, 4]

/-- A fresh two-sample session used by the odd-interval examples. -/
def twoSession : BLState := initState [1, 2] [0, 1]

theorem setRangeAux_length (v : α) (lo hi : ℕ) :
    ∀ (l : List α) (i : ℕ), (setRangeAux v lo hi i l).length = l.length := by
  intro l
  induction l with
  | nil => intro i; rfl
  | cons x xs ih => intro i; simp [setRangeAux, ih]

theorem setRange_length (l : List α) (lo hi : ℕ) (v : α) :
    (setRange l lo hi v).length = l.length :=
  setRangeAux_length v lo hi l 0

theorem setRangeAux_getq (v : α) (lo hi : ℕ) :
    ∀ (l : List α) (j i : ℕ),
      (setRangeAux v lo hi j l).get? i =
        (l.get? i).map (fun x => if lo ≤ j + i ∧ j + i < hi then v else x) := by
  intro l
  induction l with
  | nil => intro j i; simp [setRangeAux]
  | cons x xs ih =>
    intro j i
    cases i with
    | zero => simp [setRangeAux]
    | succ n =>
      have h := ih (j + 1) n
      simp only [setRangeAux, List.get?_cons_succ]
      rw [h]
      have harith : j + 1 + n = j + (n + 1) := by omega
      rw [harith]

theorem setRange_getq (l : List α) (lo hi : ℕ) (v : α) (i : ℕ) :
    (setRange l lo hi v).get? i =
      (l.get? i).map (fun x => if lo ≤ i ∧ i < hi then v else x) := by
  have h := setRangeAux_getq v lo hi l 0 i
  simpa using h

theorem applyPairsSet_length (v : Bool) (prs : List (ℕ × ℕ)) :
    ∀ em : List Bool, (applyPairsSet v em prs).length = em.length := by
  induction prs with
  | nil => intro em; rfl
  | cons p ps ih =>
    intro em
    simp only [applyPairsSet, List.foldl_cons] at ih ⊢
    rw [ih, setRange_length]

theorem applyPairsSet_true_preserve (prs : List (ℕ × ℕ)) :
    ∀ (em : List Bool) (i : ℕ), em.get? i = some true →
      (applyPairsSet true em prs).get? i = some true := by
  induction prs with
  | nil => intro em i h; simpa [applyPairsSet] using h
  | cons p ps ih =>
    intro em i h
    simp only [applyPairsSet, List.foldl_cons] at ih ⊢
    apply ih
    rw [setRange_getq, h]
    simp

theorem applyPairsSet_true_of_mem (prs : List (ℕ × ℕ)) :
    ∀ (em : List Bool) (lo hi i : ℕ), (lo, hi) ∈ prs → lo ≤ i → i < hi →
      i < em.length → (applyPairsSet true em prs).get? i = some true := by
  induction prs with
  | nil => intro em lo hi i h _ _ _; simp at h
  | cons p ps ih =>
    intro em lo hi i hmem h1 h2 hlen
    simp only [applyPairsSet, List.foldl_cons] at ih ⊢
    rcases List.mem_cons.mp hmem with heq | htail
    · apply applyPairsSet_true_preserve
      obtain ⟨x, hx⟩ : ∃ x, em.get? i = some x := by
        rw [List.get?_eq_get hlen]; exact ⟨_, rfl⟩
      rw [setRange_getq, hx, ← heq]
      simp [h1, h2]
    · exact ih _ lo hi i htail h1 h2 (by rw [setRange_length]; exact hlen)

theorem getq_map (f : α → β) :
    ∀ (l : List α) (i : ℕ) (x : α),
      l.get? i = some x → (l.map f).get? i = some (f x) := by
  intro l
  induction l with
  | nil => intro i x h; simp at h
  | cons hd tl ih =>
    intro i x h
    cases i with
    | zero =>
      simp only [List.get?_cons_zero, Option.some.injEq] at h
      simp [h]
    | succ n =>
      simp only [List.get?_cons_succ] at h
      simpa using ih n x h

theorem getq_zipWith (f : α → β → γ) :
    ∀ (a : List α) (b : List β) (i : ℕ) (x : α) (y : β),
      a.get? i = some x → b.get? i = some y →
      (List.zipWith f a b).get? i = some (f x y) := by
  intro a
  induction a with
  | nil => intro b i x y h _; simp at h
  | cons ha ta ih =>
    intro b i x y hx hy
    cases b with
    | nil => simp at hy
    | cons hb tb =>
      cases i with
      | zero =>
        simp only [List.get?_cons_zero, Option.some.injEq] at hx hy
        simp [hx, hy]
      | succ n =>
        simp only [List.get?_cons_succ] at hx hy
        simpa using ih tb n x y hx hy

theorem asUnit_length (xarr : List ℚ) (u : XUnits) : (asUnit xarr u).length = xarr.length := by
  cases u
  · show (List.map (fun (i : ℕ) => (i : ℚ)) (List.range xarr.length)).length = xarr.length
    rw [List.length_map, List.length_range]
  · rfl

theorem zipWith_sub_add_cancel :
    ∀ (a b : List ℚ), a.length = b.length →
      List.zipWith (· + ·) (List.zipWith (· - ·) a b) b = a := by
  intro a
  induction a with
  | nil => intro b _; simp
  | cons x xs ih =>
    intro b h
    cases b with
    | nil => simp at h
    | cons y ys =>
      simp only [List.zipWith_cons_cons]
      rw [ih ys (by simpa using h)]
      simp

theorem FNorm.isnan_eq_false {f : FNorm} (h : f ≠ FNorm.nan) : f.isnan = false := by
  cases f <;> simp [FNorm.isnan] at h ⊢

/-- Fields of the session state that the region-selection phase never
writes (it touches only `excludemask`, the interval lists, and - in the
clamp step - the window indices), together with preservation of the mask
length and the window by the interval-processing steps. -/
structure RegionInv (t s : BLState) : Prop where
  data : t.data = s.data
  xarr : t.xarr = s.xarr
  error : t.error = s.error
  spectofit : t.spectofit = s.spectofit
  order : t.order = s.order
  basespec : t.basespec = s.basespec
  baselinepars : t.baselinepars = s.baselinepars
  subtracted : t.subtracted = s.subtracted
  OKmask : t.OKmask = s.OKmask
  maskLen : t.excludemask.length = s.excludemask.length

theorem RegionInv.trans {a b c : BLState} (h1 : RegionInv b a) (h2 : RegionInv c b) :
    RegionInv c a :=
  ⟨h2.data.trans h1.data, h2.xarr.trans h1.xarr, h2.error.trans h1.error,
   h2.spectofit.trans h1.spectofit, h2.order.trans h1.order,
   h2.basespec.trans h1.basespec, h2.baselinepars.trans h1.baselinepars,
   h2.subtracted.trans h1.subtracted, h2.OKmask.trans h1.OKmask,
   h2.maskLen.trans h1.maskLen⟩

theorem processInclude_inv (s : BLState) (r : RegionSpec) :
    RegionInv (processInclude s r) s := by
  cases r <;> simp only [processInclude] <;> first
    | exact ⟨rfl, rfl, rfl, rfl, rfl, rfl, rfl, rfl, rfl, rfl⟩
    | (split <;>
        exact ⟨rfl, rfl, rfl, rfl, rfl, rfl, rfl, rfl, rfl, by
          simp [applyPairsSet_length, List.length_replicate]⟩)

theorem processInclude_bx1 (s : BLState) (r : RegionSpec) :
    (processInclude s r).bx1 = s.bx1 := by
  cases r <;> simp only [processInclude] <;> try rfl
  all_goals split <;> rfl

theorem processInclude_bx2 (s : BLState) (r : RegionSpec) :
    (processInclude s r).bx2 = s.bx2 := by
  cases r <;> simp only [processInclude] <;> try rfl
  all_goals split <;> rfl

theorem clampWindow_inv (s : BLState) : RegionInv (clampWindow s) s := by
  unfold clampWindow
  split
  · exact ⟨rfl, rfl, rfl, rfl, rfl, rfl, rfl, rfl, rfl, rfl⟩
  · exact ⟨rfl, rfl, rfl, rfl, rfl, rfl, rfl, rfl, rfl, rfl⟩

theorem clampWindow_includepix (s : BLState) :
    (clampWindow s).includepix = s.includepix := by
  unfold clampWindow; split <;> rfl

theorem processExclude_inv (s : BLState) (r : RegionSpec) :
    RegionInv (processExclude s r) s := by
  cases r <;> simp only [processExclude] <;> first
    | exact ⟨rfl, rfl, rfl, rfl, rfl, rfl, rfl, rfl, rfl, rfl⟩
    | (split <;>
        exact ⟨rfl, rfl, rfl, rfl, rfl, rfl, rfl, rfl, rfl, by
          simp [applyPairsSet_length]⟩)

theorem processExclude_bx1 (s : BLState) (r : RegionSpec) :
    (processExclude s r).bx1 = s.bx1 := by
  cases r <;> simp only [processExclude] <;> try rfl
  all_goals split <;> rfl

theorem processExclude_bx2 (s : BLState) (r : RegionSpec) :
    (processExclude s r).bx2 = s.bx2 := by
  cases r <;> simp only [processExclude] <;> try rfl
  all_goals split <;> rfl

theorem regionPipe_inv (s : BLState) (inc exc : RegionSpec) :
    RegionInv (regionPipe s inc exc) s := by
  unfold regionPipe
  exact RegionInv.trans (RegionInv.trans (processInclude_inv s inc)
    (clampWindow_inv (processInclude s inc)))
    (processExclude_inv (clampWindow (processInclude s inc)) exc)

theorem postUnsub_of_not_subtracted {s : BLState} (h : s.subtracted = false) :
    postUnsub s = s := by
  simp [postUnsub, h]

theorem postUnsub_basespec (s : BLState) : (postUnsub s).basespec = s.basespec := by
  unfold postUnsub unsubtract; split <;> simp

theorem postUnsub_baselinepars (s : BLState) :
    (postUnsub s).baselinepars = s.baselinepars := by
  unfold postUnsub unsubtract; split <;> simp

theorem postUnsub_xarr (s : BLState) : (postUnsub s).xarr = s.xarr := by
  unfold postUnsub unsubtract; split <;> simp

theorem postUnsub_subtracted (s : BLState) : (postUnsub s).subtracted = false ∨
    (postUnsub s).subtracted = s.subtracted := by
  unfold postUnsub unsubtract
  split
  · left; simp
  · right; rfl

theorem fitMask_postUnsub (s : BLState) : fitMask (postUnsub s) = fitMask s := by
  unfold postUnsub unsubtract
  split <;> rfl

theorem dofitPost_ok_snd (s : BLState) (sub fo pl : Bool) (u : XUnits)
    (v : List ℚ × List ℚ) :
    (dofitPost s sub fo pl u (.ok v)).2 = Option.none := by
  obtain ⟨c, p⟩ := v
  simp only [dofitPost]
  split_ifs <;> rfl

theorem dofitPost_err (s : BLState) (sub fo pl : Bool) (u : XUnits) (e : BLErr) :
    dofitPost s sub fo pl u (.error e) = (s, some e) := rfl

theorem strided_nil (k : ℕ) : strided k ([] : List α) = [] := by
  rw [strided]

theorem strided_cons (k : ℕ) (x : α) (xs : List α) :
    strided k (x :: xs) = x :: strided k (xs.drop (k - 1)) := by
  rw [strided]

theorem strided_len_congr_aux (k n : ℕ) :
    ∀ (a : List α) (b : List β), a.length = n → a.length = b.length →
      (strided k a).length = (strided k b).length := by
  induction n using Nat.strong_induction_on with
  | _ n ih =>
    intro a b hn h
    cases a with
    | nil =>
      cases b with
      | nil => rw [strided_nil, strided_nil]; rfl
      | cons y ys => simp at h
    | cons x xs =>
      cases b with
      | nil => simp at h
      | cons y ys =>
        rw [strided_cons, strided_cons]
        simp only [List.length_cons]
        congr 1
        apply ih (xs.drop (k - 1)).length ?_ _ _ rfl ?_
        · simp only [List.length_cons] at hn
          simp only [List.length_drop]
          omega
        · simp only [List.length_cons] at h
          simp only [List.length_drop]
          omega

theorem strided_len_congr (k : ℕ) (a : List α) (b : List β) (h : a.length = b.length) :
    (strided k a).length = (strided k b).length :=
  strided_len_congr_aux k a.length a b rfl h

theorem pySlice_length (l : List α) (a b : ℕ) :
    (pySlice l a b).length = min b l.length - a := by
  simp [pySlice, List.length_drop, List.length_take]

/-- Claim C9 (confirmed): `unsubtract` is idempotent.  For every session
state, calling it twice in a row leaves the host series and the whole
session state exactly as one call does, and the second call is a no-op
that signals only the informational not-subtracted message (its boolean
component). -/
theorem unsubtract_idempotent (s : BLState) :
    (unsubtract (unsubtract s).1).1 = (unsubtract s).1 ∧
    (unsubtract (unsubtract s).1).2 = true := by
  unfold unsubtract
  cases hs : s.subtracted <;> simp [hs]

/-- Claim C10 (confirmed): `crop` and `downsample` slice/stride the stored
curve, the exclusion mask and the validity mask identically, so three
arrays of equal length stay of equal length; the window indices `bx1` and
`bx2` are left untouched by both operations (and hence keep referring to
the pre-crop index space). -/
theorem crop_downsample_lockstep (s : BLState) (x1 x2 factor : ℕ)
    (h1 : s.basespec.length = s.excludemask.length)
    (h2 : s.excludemask.length = s.OKmask.length) :
    (crop s x1 x2).basespec.length = (crop s x1 x2).excludemask.length ∧
    (crop s x1 x2).excludemask.length = (crop s x1 x2).OKmask.length ∧
    (crop s x1 x2).bx1 = s.bx1 ∧ (crop s x1 x2).bx2 = s.bx2 ∧
    (downsample s factor).basespec.length = (downsample s factor).excludemask.length ∧
    (downsample s factor).excludemask.length = (downsample s factor).OKmask.length ∧
    (downsample s factor).bx1 = s.bx1 ∧ (downsample s factor).bx2 = s.bx2 := by
  refine ⟨?_, ?_, rfl, rfl, ?_, ?_, rfl, rfl⟩
  · show (pySlice s.basespec x1 x2).length = (pySlice s.excludemask x1 x2).length
    rw [pySlice_length, pySlice_length, h1]
  · show (pySlice s.excludemask x1 x2).length = (pySlice s.OKmask x1 x2).length
    rw [pySlice_length, pySlice_length, h2]
  · exact strided_len_congr factor _ _ h1
  · exact strided_len_congr factor _ _ h2

/-- Witness for C10: the lockstep property at a concrete five-sample
session, crop window [1,3) and stride 2. -/
theorem crop_downsample_lockstep_inst :
    (fiveSession.basespec.length = fiveSession.excludemask.length ∧
     fiveSession.excludemask.length = fiveSession.OKmask.length) ∧
    ((crop fiveSession 1 3).basespec.length = (crop fiveSession 1 3).excludemask.length ∧
     (crop fiveSession 1 3).excludemask.length = (crop fiveSession 1 3).OKmask.length ∧
     (crop fiveSession 1 3).bx1 = fiveSession.bx1 ∧
     (crop fiveSession 1 3).bx2 = fiveSession.bx2 ∧
     (downsample fiveSession 2).basespec.length
       = (downsample fiveSession 2).excludemask.length ∧
     (downsample fiveSession 2).excludemask.length
       = (downsample fiveSession 2).OKmask.length ∧
     (downsample fiveSession 2).bx1 = fiveSession.bx1 ∧
     (downsample fiveSession 2).bx2 = fiveSession.bx2) :=
  ⟨⟨by decide, by decide⟩,
   crop_downsample_lockstep fiveSession 1 3 2 (by decide) (by decide)⟩

/-- Claim C5 (corrected): what actually happens on an odd number of
endpoints.  An odd-length exclusion list is ignored entirely (the stored
exclusion intervals and the derived mask are retained unchanged).  An
odd-length inclusion list retains the stored includepix/includevelo lists
but does not retain the derived exclusion mask: both inclusion branches
execute `excludemask[:] = True` before testing the length parity, so the
mask is left all-True.  No warning is signaled on either path. -/
theorem odd_interval_update (s : BLState) (vs : List ℚ) (ps : List ℕ)
    (hv : vs.length % 2 = 1) (hp : ps.length % 2 = 1) :
    processExclude s (RegionSpec.velo vs) = s ∧
    processExclude s (RegionSpec.pix ps) = s ∧
    (processInclude s (RegionSpec.velo vs)).includepix = s.includepix ∧
    (processInclude s (RegionSpec.velo vs)).includevelo = s.includevelo ∧
    (processInclude s (RegionSpec.velo vs)).excludemask
      = List.replicate s.excludemask.length true ∧
    (processInclude s (RegionSpec.pix ps)).includepix = s.includepix ∧
    (processInclude s (RegionSpec.pix ps)).excludemask
      = List.replicate s.excludemask.length true := by
  have hv0 : ¬ vs.length % 2 = 0 := by omega
  have hp0 : ¬ ps.length % 2 = 0 := by omega
  simp [processExclude, processInclude, hv0, hp0]

/-- Counterexample to claim C5 as stated: on a fresh two-sample session an
odd-length inclusion list does not leave the derived exclusion mask
unchanged - the update clobbers it to all-True. -/
theorem odd_include_clobbers_mask :
    (processInclude twoSession (RegionSpec.velo [0])).excludemask
      ≠ twoSession.excludemask := by
  decide

/-- Witness for C5 (amended) at the concrete odd lists `[0]`. -/
theorem odd_interval_update_inst :
    (([(0 : ℚ)].length % 2 = 1) ∧ ([(0 : ℕ)].length % 2 = 1)) ∧
    (processExclude twoSession (RegionSpec.velo [0]) = twoSession ∧
     processExclude twoSession (RegionSpec.pix [0]) = twoSession ∧
     (processInclude twoSession (RegionSpec.velo [0])).includepix
       = twoSession.includepix ∧
     (processInclude twoSession (RegionSpec.velo [0])).includevelo
       = twoSession.includevelo ∧
     (processInclude twoSession (RegionSpec.velo [0])).excludemask
       = List.replicate twoSession.excludemask.length true ∧
     (processInclude twoSession (RegionSpec.pix [0])).includepix
       = twoSession.includepix ∧
     (processInclude twoSession (RegionSpec.pix [0])).excludemask
       = List.replicate twoSession.excludemask.length true) :=
  ⟨⟨by decide, by decide⟩,
   odd_interval_update twoSession [0] [0] (by decide) (by decide)⟩

/-- Claim C3 (corrected): a non-empty inclusion interval set does not widen
the Window - `dofit` clamps the window into the inclusion hull:
`bx1 := max(bx1, min includepix)` and `bx2 := min(bx2, max includepix)`.
As a result of setting inclusion intervals the Window may only shrink or
stay equal, never grow. -/
theorem include_clamps_window (s : BLState) (inc : RegionSpec)
    (h : (processInclude s inc).includepix ≠ []) :
    (clampWindow (processInclude s inc)).bx1
      = max s.bx1 (minNat (processInclude s inc).includepix) ∧
    (clampWindow (processInclude s inc)).bx2
      = min s.bx2 (maxNat (processInclude s inc).includepix) ∧
    s.bx1 ≤ (clampWindow (processInclude s inc)).bx1 ∧
    (clampWindow (processInclude s inc)).bx2 ≤ s.bx2 := by
  have hb1 := processInclude_bx1 s inc
  have hb2 := processInclude_bx2 s inc
  unfold clampWindow
  rw [if_neg h]
  simp only [hb1, hb2]
  refine ⟨?_, ?_, ?_, ?_⟩ <;> split_ifs <;> omega

/-- Counterexample to claim C3 as stated: a fresh ten-sample session with
window [0,9] and inclusion pixels [2,5] ends with bx2 = 5 < 9, so the
Window shrank after setting inclusion intervals. -/
theorem include_shrinks_window :
    ¬ tenSession.bx2
        ≤ (clampWindow (processInclude tenSession (RegionSpec.pix [2, 5]))).bx2 := by
  decide

/-- Witness for C3 (amended) at the concrete inclusion pixels [2,5]. -/
theorem include_clamps_window_inst :
    (processInclude tenSession (RegionSpec.pix [2, 5])).includepix ≠ [] ∧
    ((clampWindow (processInclude tenSession (RegionSpec.pix [2, 5]))).bx1
       = max tenSession.bx1
           (minNat (processInclude tenSession (RegionSpec.pix [2, 5])).includepix) ∧
     (clampWindow (processInclude tenSession (RegionSpec.pix [2, 5]))).bx2
       = min tenSession.bx2
           (maxNat (processInclude tenSession (RegionSpec.pix [2, 5])).includepix) ∧
     tenSession.bx1
       ≤ (clampWindow (processInclude tenSession (RegionSpec.pix [2, 5]))).bx1 ∧
     (clampWindow (processInclude tenSession (RegionSpec.pix [2, 5]))).bx2
       ≤ tenSession.bx2) :=
  ⟨by decide, include_clamps_window tenSession (RegionSpec.pix [2, 5]) (by decide)⟩

/-- Claim C4 (confirmed): exclusion dominance.  For every window, inclusion
spec and session state, and every supplied exclusion interval set, a sample
index strictly inside one of the (normalized, pixel-converted) exclusion
intervals carries `true` in the mask handed to `_baseline`, regardless of
the inclusion intervals or window settings processed before it. -/
theorem exclusion_dominates_mask (s : BLState) (inc exc : RegionSpec) (lo hi i : ℕ)
    (hmem : (lo, hi) ∈ excPixPairsOf s.xarr exc)
    (hlo : lo < i) (hhi : i < hi)
    (hilen : i < s.excludemask.length)
    (hlen2 : s.excludemask.length = s.OKmask.length) :
    (fitMask (postUnsub (regionPipe s inc exc))).get? i = some true := by
  rw [fitMask_postUnsub]
  have huinv : RegionInv (clampWindow (processInclude s inc)) s :=
    RegionInv.trans (processInclude_inv s inc) (clampWindow_inv (processInclude s inc))
  have hulen : i < (clampWindow (processInclude s inc)).excludemask.length := by
    rw [huinv.maskLen]; exact hilen
  have hmask : (regionPipe s inc exc).excludemask.get? i = some true := by
    unfold regionPipe
    cases exc with
    | absent => simp [excPixPairsOf] at hmem
    | otherUnits => simp [excPixPairsOf] at hmem
    | velo vs =>
      by_cases hev : vs.length % 2 = 0
      · simp only [processExclude, if_pos hev]
        rw [huinv.xarr]
        simp only [excPixPairsOf, if_pos hev] at hmem
        exact applyPairsSet_true_of_mem _ _ lo hi i hmem (Nat.le_of_lt hlo) hhi hulen
      · simp [excPixPairsOf, hev] at hmem
    | pix ps =>
      by_cases hev : ps.length % 2 = 0
      · simp only [processExclude, if_pos hev]
        simp only [excPixPairsOf, if_pos hev] at hmem
        exact applyPairsSet_true_of_mem _ _ lo hi i hmem (Nat.le_of_lt hlo) hhi hulen
      · simp [excPixPairsOf, hev] at hmem
  have htinv : RegionInv (regionPipe s inc exc) s := regionPipe_inv s inc exc
  have hiOK : i < (regionPipe s inc exc).OKmask.length := by
    rw [htinv.OKmask]; omega
  obtain ⟨b1, hb1⟩ : ∃ x, (regionPipe s inc exc).OKmask.get? i = some x :=
    ⟨_, List.get?_eq_get hiOK⟩
  have hedlen : (okEdges (regionPipe s inc exc)).length
      = (regionPipe s inc exc).OKmask.length := by
    simp [okEdges, setRange_length, List.length_replicate]
  obtain ⟨b3, hb3⟩ : ∃ x, (okEdges (regionPipe s inc exc)).get? i = some x :=
    ⟨_, List.get?_eq_get (by rw [hedlen]; exact hiOK)⟩
  have hnb1 : (notList (regionPipe s inc exc).OKmask).get? i = some (!b1) :=
    getq_map not _ i b1 hb1
  have hnb3 : (notList (okEdges (regionPipe s inc exc))).get? i = some (!b3) :=
    getq_map not _ i b3 hb3
  have h12 : (orList (notList (regionPipe s inc exc).OKmask)
      (regionPipe s inc exc).excludemask).get? i = some (!b1 || true) :=
    getq_zipWith or _ _ i _ _ hnb1 hmask
  have hfin : (fitMask (regionPipe s inc exc)).get? i = some ((!b1 || true) || !b3) :=
    getq_zipWith or _ _ i _ _ h12 hnb3
  rw [hfin]
  simp

/-- Witness for C4: index 2 lies strictly inside the exclusion pixel pair
(1,4) on a fresh five-sample session and ends up masked. -/
theorem exclusion_dominates_mask_inst :
    ((1, 4) ∈ excPixPairsOf fiveSession.xarr (RegionSpec.pix [1, 4]) ∧
     1 < 2 ∧ 2 < 4 ∧ 2 < fiveSession.excludemask.length ∧
     fiveSession.excludemask.length = fiveSession.OKmask.length) ∧
    (fitMask (postUnsub (regionPipe fiveSession RegionSpec.absent
        (RegionSpec.pix [1, 4])))).get? 2 = some true :=
  ⟨⟨by decide, by decide, by decide, by decide, by decide⟩,
   exclusion_dominates_mask fiveSession RegionSpec.absent (RegionSpec.pix [1, 4])
     1 4 2 (by decide) (by decide) (by decide) (by decide) (by decide)⟩

theorem baselineFit_of_prep_ok (spectrum xarr err : List ℚ) (excl : Option (ℕ × ℕ))
    (m : List Bool) (pl : Bool) (order : ℕ) (u : XUnits)
    (mz : List ℚ → List ℚ → List ℚ → MinResult) (d e g : List ℚ)
    (hprep : baselinePrep spectrum xarr err excl m pl order u = .ok (d, e, g)) :
    baselineFit spectrum xarr err excl m pl order u mz
      = if (mz d e g).fnorm.isnan then .error .chiSqNaN
        else .ok ((asUnit xarr u).map (evalModel pl (mz d e g).params),
                  (mz d e g).params) := by
  unfold baselineFit
  rw [hprep]

/-- Claim C7 (corrected): after the external minimizer returns, the fit
raises if and only if the reported statistic is NaN - not "not a finite
number": the source checks `np.isnan` only, so an infinite statistic is
not caught.  Whenever the statistic is not NaN the fit completes and
returns the parameters together with the full model curve. -/
theorem fit_error_iff_fnorm_nan (spectrum xarr err : List ℚ) (excl : Option (ℕ × ℕ))
    (m : List Bool) (pl : Bool) (order : ℕ) (u : XUnits)
    (mz : List ℚ → List ℚ → List ℚ → MinResult) (d e g : List ℚ)
    (hprep : baselinePrep spectrum xarr err excl m pl order u = .ok (d, e, g)) :
    (exceptIsError (baselineFit spectrum xarr err excl m pl order u mz) = true
       ↔ (mz d e g).fnorm = FNorm.nan) ∧
    ((mz d e g).fnorm ≠ FNorm.nan →
       baselineFit spectrum xarr err excl m pl order u mz
         = .ok ((asUnit xarr u).map (evalModel pl (mz d e g).params),
                (mz d e g).params)) := by
  rw [baselineFit_of_prep_ok spectrum xarr err excl m pl order u mz d e g hprep]
  by_cases hn : (mz d e g).fnorm = FNorm.nan
  · simp [hn, FNorm.isnan, exceptIsError]
  · simp [FNorm.isnan_eq_false hn, exceptIsError, hn]

/-- Counterexample to claim C7 as stated: a fit whose reported statistic is
infinite - hence not a finite number - does not fail; only NaN triggers the
error. -/
theorem fit_inf_fnorm_completes :
    exceptIsError (baselineFit [1] [0] [1] Option.none [false] false 0
        XUnits.pixels oracleInf) = false ∧
    FNorm.isfinite (oracleInf [1] [1] [0]).fnorm = false := by
  decide

/-- Witness for C7 (amended) at a concrete one-sample polynomial fit with a
NaN-reporting minimizer. -/
theorem fit_error_iff_fnorm_nan_inst :
    baselinePrep [1] [0] [1] Option.none [false] false 0 XUnits.pixels
      = .ok ([1], [1], [0]) ∧
    ((exceptIsError (baselineFit [1] [0] [1] Option.none [false] false 0
         XUnits.pixels oracleNan) = true
        ↔ (oracleNan [1] [1] [0]).fnorm = FNorm.nan) ∧
     ((oracleNan [1] [1] [0]).fnorm ≠ FNorm.nan →
        baselineFit [1] [0] [1] Option.none [false] false 0 XUnits.pixels oracleNan
          = .ok ((asUnit [0] XUnits.pixels).map
              (evalModel false (oracleNan [1] [1] [0]).params),
              (oracleNan [1] [1] [0]).params))) :=
  ⟨by rfl, fit_error_iff_fnorm_nan [1] [0] [1] Option.none [false] false 0
      XUnits.pixels oracleNan [1] [1] [0] (by rfl)⟩

/-- Claim C6 (corrected): the power-law path enforces no positivity
precondition.  Even when an unmasked sample is non-positive, no error is
raised before the external minimizer is invoked, and the fit completes
whenever the reported statistic is not NaN; the non-positive samples stay
in the data handed to the log-space residual (they are not skipped). -/
theorem powerlaw_no_positivity_precheck (spectrum xarr err : List ℚ)
    (excl : Option (ℕ × ℕ)) (m : List Bool) (order : ℕ) (u : XUnits)
    (mz : List ℚ → List ℚ → List ℚ → MinResult) (i : ℕ) (v : ℚ) (d e g : List ℚ)
    (_hv : spectrum.get? i = some v) (_hnp : v ≤ 0) (_hm : m.get? i = some false)
    (hprep : baselinePrep spectrum xarr err excl m true order u = .ok (d, e, g))
    (hnan : (mz d e g).fnorm ≠ FNorm.nan) :
    ∃ curve fitp,
      baselineFit spectrum xarr err excl m true order u mz = .ok (curve, fitp) := by
  rw [baselineFit_of_prep_ok spectrum xarr err excl m true order u mz d e g hprep]
  rw [FNorm.isnan_eq_false hnan]
  exact ⟨_, _, rfl⟩

/-- Counterexample to claim C6 as stated: a power-law fit over the single
unmasked non-positive sample -1 completes without any error (in particular
no precondition error is raised before the minimizer). -/
theorem powerlaw_nonpositive_completes :
    exceptIsError (baselineFit [-1] [0] [1] Option.none [false] true 1
        XUnits.pixels oraclePL) = false ∧
    ([(-1 : ℚ)].get? 0 = some (-1) ∧ ((-1 : ℚ) ≤ 0) ∧
     [false].get? 0 = some false) := by
  decide

/-- Witness for C6 (amended) at the concrete non-positive sample -1. -/
theorem powerlaw_no_positivity_precheck_inst :
    (([(-1 : ℚ)] : List ℚ).get? 0 = some (-1) ∧ ((-1 : ℚ) ≤ 0) ∧
     ([false] : List Bool).get? 0 = some false ∧
     baselinePrep [-1] [0] [1] Option.none [false] true 1 XUnits.pixels
       = .ok ([-1], [1], [-1, 2, -1]) ∧
     (oraclePL [-1] [1] [-1, 2, -1]).fnorm ≠ FNorm.nan) ∧
    (∃ curve fitp,
      baselineFit [-1] [0] [1] Option.none [false] true 1 XUnits.pixels oraclePL
        = .ok (curve, fitp)) :=
  ⟨⟨by decide, by decide, by decide, by with_unfolding_all decide, by decide⟩,
   powerlaw_no_positivity_precheck [-1] [0] [1] Option.none [false] 1 XUnits.pixels
     oraclePL 0 (-1) [-1] [1] [-1, 2, -1] (by decide) (by decide) (by decide)
     (by with_unfolding_all decide) (by decide)⟩

/-- Claim C8 (confirmed): every successful fit over an N-sample series
returns a model curve of length N with an entry present at every index,
including masked and out-of-window indices, so it can be subtracted from or
added back to the full series without index mismatch. -/
theorem fit_curve_full_length (spectrum xarr err : List ℚ) (excl : Option (ℕ × ℕ))
    (m : List Bool) (pl : Bool) (order : ℕ) (u : XUnits)
    (mz : List ℚ → List ℚ → List ℚ → MinResult) (curve fitp : List ℚ)
    (hlen : xarr.length = spectrum.length)
    (hok : baselineFit spectrum xarr err excl m pl order u mz = .ok (curve, fitp)) :
    curve.length = spectrum.length ∧
    ∀ i, i < spectrum.length → (curve.get? i).isSome = true := by
  cases hp : baselinePrep spectrum xarr err excl m pl order u with
  | error e =>
    unfold baselineFit at hok
    rw [hp] at hok
    exact absurd hok (by simp)
  | ok trip =>
    obtain ⟨d, e, g⟩ := trip
    rw [baselineFit_of_prep_ok spectrum xarr err excl m pl order u mz d e g hp] at hok
    by_cases hn : (mz d e g).fnorm.isnan
    · rw [if_pos hn] at hok
      exact absurd hok (by simp)
    · rw [if_neg hn] at hok
      have hc : curve = (asUnit xarr u).map (evalModel pl (mz d e g).params) := by
        injection hok with hok1
        exact (congrArg Prod.fst hok1).symm
      have hcl : curve.length = spectrum.length := by
        rw [hc, List.length_map, asUnit_length, hlen]
      refine ⟨hcl, fun i hi => ?_⟩
      have : i < curve.length := by rw [hcl]; exact hi
      rw [List.get?_eq_get this]
      rfl

/-- Witness for C8 at a concrete one-sample polynomial fit. -/
theorem fit_curve_full_length_inst :
    (([(0 : ℚ)] : List ℚ).length = ([(1 : ℚ)] : List ℚ).length ∧
     baselineFit [1] [0] [1] Option.none [false] false 0 XUnits.pixels oracleZero
       = .ok ([0], [0])) ∧
    (([(0 : ℚ)] : List ℚ).length = ([(1 : ℚ)] : List ℚ).length ∧
     ∀ i, i < ([(1 : ℚ)] : List ℚ).length →
       ((([(0 : ℚ)] : List ℚ).get? i)).isSome = true) :=
  ⟨⟨by decide, by with_unfolding_all decide⟩,
   fit_curve_full_length [1] [0] [1] Option.none [false] false 0 XUnits.pixels
     oracleZero [0] [0] (by decide) (by with_unfolding_all decide)⟩

theorem dofitPost_ok_subtract (s : BLState) (fo pl : Bool) (u : XUnits)
    (c p : List ℚ) (hs : s.subtracted = false) :
    (dofitPost s true fo pl u (.ok (c, p))).1
      = { s with
          baselinepars := some p,
          powerlaw := pl,
          basespec := if pl then (asUnit s.xarr u).map (plawEval p)
                      else (asUnit s.xarr u).map (polyEval p),
          data := List.zipWith (· - ·) s.data
            (if pl then (asUnit s.xarr u).map (plawEval p)
             else (asUnit s.xarr u).map (polyEval p)),
          subtracted := true } := by
  cases pl <;> simp [dofitPost, hs]

/-- Claim C1 (corrected): when `_baseline` raises the degenerate-fit error,
the prior fit parameters and the stored curve are indeed left unchanged,
and when the session started in not-subtracted state the host series and
the subtracted flag are unchanged too.  But the claim fails for every
starting state: a session that starts subtracted has already had the
stored curve added back into the host series and its flag cleared (lines
191-192) before the error propagates, so partial mutation does occur. -/
theorem dofit_error_preserves_fit_state (s : BLState) (inc exc : RegionSpec)
    (sub fo pl : Bool) (u : XUnits)
    (mz : List ℚ → List ℚ → List ℚ → MinResult)
    (h : (dofit s inc exc sub fo pl u mz).2.isSome = true) :
    (dofit s inc exc sub fo pl u mz).1.baselinepars = s.baselinepars ∧
    (dofit s inc exc sub fo pl u mz).1.basespec = s.basespec ∧
    (s.subtracted = false →
      (dofit s inc exc sub fo pl u mz).1.data = s.data ∧
      (dofit s inc exc sub fo pl u mz).1.subtracted = false) := by
  have hinv := regionPipe_inv s inc exc
  simp only [dofit] at h ⊢
  cases hr : baselineFit (postUnsub (regionPipe s inc exc)).spectofit
      (postUnsub (regionPipe s inc exc)).xarr (postUnsub (regionPipe s inc exc)).error
      Option.none (fitMask (postUnsub (regionPipe s inc exc))) pl
      (postUnsub (regionPipe s inc exc)).order u mz with
  | ok v =>
    rw [hr, dofitPost_ok_snd] at h
    simp at h
  | error e =>
    rw [dofitPost_err]
    refine ⟨?_, ?_, ?_⟩
    · show (postUnsub (regionPipe s inc exc)).baselinepars = s.baselinepars
      rw [postUnsub_baselinepars, hinv.baselinepars]
    · show (postUnsub (regionPipe s inc exc)).basespec = s.basespec
      rw [postUnsub_basespec, hinv.basespec]
    · intro hsub
      have hps : (regionPipe s inc exc).subtracted = false := by
        rw [hinv.subtracted, hsub]
      constructor
      · show (postUnsub (regionPipe s inc exc)).data = s.data
        rw [postUnsub_of_not_subtracted hps, hinv.data]
      · show (postUnsub (regionPipe s inc exc)).subtracted = false
        rw [postUnsub_of_not_subtracted hps, hps]

/-- Counterexample to claim C1 as stated: a session in subtracted state
whose fit fails fatally ends with a mutated host series and a cleared
subtracted flag. -/
theorem dofit_error_mutates_subtracted_session :
    ((dofit subSession RegionSpec.absent RegionSpec.absent true false false
        XUnits.pixels oracleNan).2).isSome = true ∧
    (dofit subSession RegionSpec.absent RegionSpec.absent true false false
        XUnits.pixels oracleNan).1.data ≠ subSession.data ∧
    (dofit subSession RegionSpec.absent RegionSpec.absent true false false
        XUnits.pixels oracleNan).1.subtracted ≠ subSession.subtracted := by
  with_unfolding_all decide

/-- Witness for C1 (amended): a not-subtracted session whose fit fails
keeps parameters, curve, host series and flag. -/
theorem dofit_error_preserves_fit_state_inst :
    ((dofit twoSession RegionSpec.absent RegionSpec.absent true false false
        XUnits.pixels oracleNan).2).isSome = true ∧
    ((dofit twoSession RegionSpec.absent RegionSpec.absent true false false
        XUnits.pixels oracleNan).1.baselinepars = twoSession.baselinepars ∧
     (dofit twoSession RegionSpec.absent RegionSpec.absent true false false
        XUnits.pixels oracleNan).1.basespec = twoSession.basespec ∧
     (twoSession.subtracted = false →
       (dofit twoSession RegionSpec.absent RegionSpec.absent true false false
          XUnits.pixels oracleNan).1.data = twoSession.data ∧
       (dofit twoSession RegionSpec.absent RegionSpec.absent true false false
          XUnits.pixels oracleNan).1.subtracted = false)) :=
  ⟨by with_unfolding_all decide,
   dofit_error_preserves_fit_state twoSession RegionSpec.absent RegionSpec.absent
     true false false XUnits.pixels oracleNan (by with_unfolding_all decide)⟩

/-- Claim C2 (corrected): for a session that is NOT currently in subtracted
state, `dofit` with subtract=True followed by `unsubtract` restores the
host series exactly, for every model kind, mask/window/interval setting and
minimizer outcome (exact rational arithmetic; in floats this is the
within-tolerance statement).  For a session already subtracted the claim as
stated fails: `dofit` first adds the stored curve back (lines 191-192), so
the round trip ends at the restored pre-subtraction series, not at the
pre-fit values. -/
theorem fit_subtract_unsubtract_roundtrip (s : BLState) (inc exc : RegionSpec)
    (fo pl : Bool) (u : XUnits) (mz : List ℚ → List ℚ → List ℚ → MinResult)
    (hsub : s.subtracted = false) (hlen : s.data.length = s.xarr.length) :
    (unsubtract (dofit s inc exc true fo pl u mz).1).1.data = s.data := by
  have hinv := regionPipe_inv s inc exc
  have hps : (regionPipe s inc exc).subtracted = false := by
    rw [hinv.subtracted, hsub]
  simp only [dofit, postUnsub_of_not_subtracted hps]
  cases hr : baselineFit (regionPipe s inc exc).spectofit (regionPipe s inc exc).xarr
      (regionPipe s inc exc).error Option.none (fitMask (regionPipe s inc exc)) pl
      (regionPipe s inc exc).order u mz with
  | error e =>
    rw [dofitPost_err]
    show (unsubtract (regionPipe s inc exc)).1.data = s.data
    rw [unsubtract, if_neg (by rw [hps]; exact Bool.false_ne_true)]
    exact hinv.data
  | ok v =>
    obtain ⟨c, p⟩ := v
    rw [dofitPost_ok_subtract (regionPipe s inc exc) fo pl u c p hps]
    rw [unsubtract]
    rw [if_pos rfl]
    show List.zipWith (· + ·)
        (List.zipWith (· - ·) (regionPipe s inc exc).data
          (if pl then (asUnit (regionPipe s inc exc).xarr u).map (plawEval p)
           else (asUnit (regionPipe s inc exc).xarr u).map (polyEval p)))
        (if pl then (asUnit (regionPipe s inc exc).xarr u).map (plawEval p)
         else (asUnit (regionPipe s inc exc).xarr u).map (polyEval p)) = s.data
    rw [zipWith_sub_add_cancel]
    · exact hinv.data
    · cases pl <;>
        simp [List.length_map, asUnit_length, hinv.xarr, hinv.data, hlen.symm]

/-- Counterexample to claim C2 as stated: starting from a subtracted
session with a nonzero stored curve, fit-then-unsubtract does not return
the host series to its pre-fit values (it ends at the restored
pre-subtraction series instead). -/
theorem fit_roundtrip_fails_when_subtracted :
    (unsubtract (dofit subSession RegionSpec.absent RegionSpec.absent true false false
        XUnits.pixels oracleZero).1).1.data ≠ subSession.data := by
  with_unfolding_all decide

/-- Witness for C2 (amended) at a concrete not-subtracted session. -/
theorem fit_subtract_unsubtract_roundtrip_inst :
    (twoSession.subtracted = false ∧
     twoSession.data.length = twoSession.xarr.length) ∧
    (unsubtract (dofit twoSession RegionSpec.absent RegionSpec.absent true false false
        XUnits.pixels oracleZero).1).1.data = twoSession.data :=
  ⟨⟨by decide, by decide⟩,
   fit_subtract_unsubtract_roundtrip twoSession RegionSpec.absent RegionSpec.absent
     false false XUnits.pixels oracleZero (by decide) (by decide)⟩

end BaselinePy
